import Mathlib

/-!
Verification development for the scene_packager repository: a shallow
embedding, over `List Char` strings, of the dependency extraction and
path rewriting engine (scene text parser, dependency merge, path
resolvers, scene rewriter, orchestrator guard and file-copy helper),
together with theorems settling the specification claims.

Modelling conventions:
* strings are `List Char` (`Chars`); `chars` converts a Lean literal;
* Python `str.replace(old, new)` and `re.sub(pat, rep, s)` with a
  pattern free of regex metacharacters are both global leftmost,
  non-overlapping literal replacement, embedded as `replaceAll`;
* a Python dict is an association list in insertion order with
  overwrite-on-duplicate-key (the CPython 3.7+ iteration order; the
  point never relied on below is only which total order `dict.items()`
  yields, never length ordering, which no Python version provides);
* fallible code returns `Except String`; an uncaught Python exception
  is `.error`;
* the filesystem, where a claim needs it, is explicit data: a directory
  listing is `Option (List Chars)` (`none` = does not exist), a file
  store is an association list from path to contents.
-/

namespace ScenePackager

abbrev Chars := List Char

def chars (s : String) : Chars := s.data

/-- Membership test for one character, matching Python `c in line`. -/
def countChar (ch : Char) (l : Chars) : Nat := (l.filter (fun c => c = ch)).length

/-- Embedding of Python str.replace / re.sub with a literal pattern:
global, leftmost, non-overlapping replacement.  The `skip` argument
tracks how many characters of an already-matched occurrence remain to
be dropped, which keeps the recursion structural. -/
def replaceGo (pat rep : Chars) : Chars → Nat → Chars
  | [], _ => []
  | _ :: rest, skip + 1 => replaceGo pat rep rest skip
  | c :: rest, 0 =>
    if pat ≠ [] ∧ pat.isPrefixOf (c :: rest) then
      rep ++ replaceGo pat rep rest (pat.length - 1)
    else
      c :: replaceGo pat rep rest 0

def replaceAll (pat rep s : Chars) : Chars := replaceGo pat rep s 0

/-- Substring occurrence test (Python `pat in s`), for nonempty `pat`. -/
def containsSub (pat : Chars) : Chars → Bool
  | [] => pat = []
  | c :: rest => pat.isPrefixOf (c :: rest) || containsSub pat rest

/-- Python `s.split(sep)` for a single-character separator: keeps empty
pieces, always returns at least one piece. -/
def splitChar (sep : Char) : Chars → List Chars
  | [] => [[]]
  | c :: rest =>
    match splitChar sep rest with
    | [] => [[]]
    | grp :: grps => if c = sep then [] :: grp :: grps else (c :: grp) :: grps

/-- Python `s.strip(ch)`: remove the character from both ends. -/
def stripChar (ch : Char) (s : Chars) : Chars :=
  ((s.dropWhile (fun c => c = ch)).reverse.dropWhile (fun c => c = ch)).reverse

/-- Index of the last occurrence of a character, if any (str.rfind). -/
def rfindIdx (ch : Char) (s : Chars) : Option Nat :=
  (s.reverse.findIdx? (fun c => c = ch)).map (fun i => s.length - 1 - i)

/-- Embedding of posixpath.join for two components. -/
def osJoin (a b : Chars) : Chars :=
  if b.head? = some '/' then b
  else if a = [] then b
  else if a.getLast? = some '/' then a ++ b
  else a ++ '/' :: b

/-- Embedding of posixpath.basename: everything after the last slash. -/
def basename (s : Chars) : Chars :=
  match rfindIdx '/' s with
  | some i => s.drop (i + 1)
  | none => s

/-- Embedding of posixpath.splitext: split off the final extension; a
dot that only leads the basename (hidden files) yields no extension. -/
def splitext (p : Chars) : Chars × Chars :=
  let sepIdx : Int := match rfindIdx '/' p with | some i => (i : Int) | none => -1
  let dotIdx : Int := match rfindIdx '.' p with | some i => (i : Int) | none => -1
  if sepIdx < dotIdx then
    let stemStart := (sepIdx + 1).toNat
    let dotPos := dotIdx.toNat
    if ((p.drop stemStart).take (dotPos - stemStart)).any (fun c => c ≠ '.') then
      (p.take dotPos, p.drop dotPos)
    else
      (p, [])
  else
    (p, [])

/-- Embedding of Python int(str): optional surrounding spaces, optional
sign, at least one ASCII digit.  (Unicode digits and underscore digit
separators are not modelled; no claim exercises them.) -/
def pyInt (s : Chars) : Option Int :=
  let t := (s.dropWhile (fun c => c = ' ')).reverse.dropWhile (fun c => c = ' ') |>.reverse
  let core : Chars → Option Int := fun ds =>
    if ds ≠ [] ∧ ds.all (fun c => c.isDigit) then
      some (ds.foldl (fun acc c => acc * 10 + ((c.toNat : Int) - 48)) 0)
    else none
  match t with
  | '-' :: ds => (core ds).map (fun v => -v)
  | '+' :: ds => core ds
  | ds => core ds

/-- Embedding of utils.clean_path: replace every backslash by a slash. -/
def clean_path (p : Chars) : Chars := replaceAll (chars "\\") (chars "/") p

/-! ## File store and utils.copy_file -/

/-- Explicit file-system fragment: association list from path to file
contents, first match wins. -/
abbrev FileStore := List (Chars × Chars)

def fsLookup (fs : FileStore) (p : Chars) : Option Chars :=
  (fs.find? (fun e => e.1 = p)).map Prod.snd

def fsWrite (fs : FileStore) (p v : Chars) : FileStore :=
  if (fs.find? (fun e => e.1 = p)).isSome then
    fs.map (fun e => if e.1 = p then (p, v) else e)
  else
    fs ++ [(p, v)]

/-- Embedding of utils.copy_file (src/python/scene_packager/utils.py).
Both paths are cleaned; if the destination file already exists and
`overwrite` is false, the function returns the destination path without
copying; otherwise it copies the source over the destination
(shutil.copyfile raises if the source is missing).  Directory creation
by make_dirs has no observable effect on the file store. -/
def copy_file (fs : FileStore) (src_file dest_file : Chars) (overwrite : Bool) :
    Except String (FileStore × Chars) :=
  let src := clean_path src_file
  let dst := clean_path dest_file
  if (fsLookup fs dst).isSome && !overwrite then .ok (fs, dst)
  else
    match fsLookup fs src with
    | none => .error "IOError: source file does not exist"
    | some content => .ok (fsWrite fs dst content, dst)

/-- Embedding of the backup step of Packager.pre_package
(src/python/scene_packager/packagers/base_packager.py line 513): the
source scene is copied to the backup path with copy_file called without
an overwrite argument, so overwrite takes its default False. -/
def pre_package_backup (fs : FileStore) (scene backup : Chars) :
    Except String (FileStore × Chars) :=
  copy_file fs scene backup false

/-! ## Orchestrator overwrite guard -/

/-- Embedding of utils.check_available_dir (src/python/scene_packager/
utils.py lines 442-453).  A directory listing is `none` when the
directory does not exist (os.listdir raises ENOENT, which the source
catches and turns into False).  Note that the body returns True exactly
when the listing is nonempty, while the docstring of the source says
the opposite ("Returns True if dir DNE or exists but is empty"). -/
def check_available_dir (listing : Option (List Chars)) : Bool :=
  match listing with
  | some entries => !entries.isEmpty
  | none => false

/-- Embedding of the existing-package guard at the top of Packager.run
(src/python/scene_packager/packagers/base_packager.py lines 580-587):
`avail := check_available_dir(package_root)`; a RuntimeError
("Package already exists ... Use --overwrite") is raised if and only if
`not avail and not overwrite`. -/
def run_guard_raises (listing : Option (List Chars)) (overwrite : Bool) : Bool :=
  !(check_available_dir listing) && !overwrite

/-! ## utils.get_relative_path -/

/-- Embedding of utils.get_relative_path (src/python/scene_packager/
utils.py lines 260-299).  The source strips the package root from both
paths with `re.sub(package_root, "", path)`, i.e. it removes every
occurrence of the root (as a regex; modelled literally, which is exact
for roots free of regex metacharacters), not just the leading one.
The two startswith assertions are AssertionError on failure, and a
dependency sitting directly in the package root is a ValueError. -/
def get_relative_path (package_scene package_dependency package_root : Chars) :
    Except String Chars :=
  let ps := clean_path package_scene
  let pd := clean_path package_dependency
  let pr := clean_path package_root
  if !(pr.isPrefixOf pd) then .error "AssertionError"
  else if !(pr.isPrefixOf ps) then .error "AssertionError"
  else
    let dep_stub := stripChar '/' (replaceAll pr [] pd)
    let scene_stub := replaceAll pr [] ps
    if dep_stub = [] then
      .error "ValueError: dependency directly in the package root"
    else
      let scene_dirs := (splitChar '/' scene_stub).filter (fun s => s ≠ [])
      if scene_dirs.length = 1 then
        .ok (clean_path (osJoin (chars ".") dep_stub))
      else
        let dirs_up := List.intercalate (chars "/")
          (List.replicate (scene_dirs.length - 1) (chars ".."))
        .ok (clean_path (osJoin dirs_up dep_stub))

/-! ## Nuke scene text parser -/

/-- Invalid-block test of _parse_nodes: the INVALIDS regexes
"^add_layer" and "^define_window_layout" are searched without
MULTILINE, so they only ever match at the start of the block text. -/
def isInvalidNode (block : Chars) : Bool :=
  (chars "add_layer").isPrefixOf block || (chars "define_window_layout").isPrefixOf block

/-- Embedding of _parse_nodes (src/python/scene_packager/packagers/
nuke/utils.py lines 88-122 and src/scene_packager/nuke/
nuke_packager_utils.py lines 103-137, which are identical): walk the
scene lines keeping an unmatched-brace counter and an accumulating
block text.  A line seen while no block is open and containing no
opening brace is skipped without counting.  Otherwise the counter is
updated by the braces of the line; if it goes negative a ValueError is
raised (the generator aborts, and parse_nodes, which drains it into a
list, discards everything and propagates the error); when it returns
to zero the accumulated block is emitted unless it matches an INVALIDS
pattern. -/
def parseNodesGo : List Chars → Nat → Chars → Except String (List Chars)
  | [], _, _ => .ok []
  | line :: rest, unmatched, nodeTxt =>
    if nodeTxt = [] ∧ countChar '\x7b' line = 0 then
      parseNodesGo rest unmatched nodeTxt
    else if ((unmatched : Int) + countChar '\x7b' line) - countChar '\x7d' line < 0 then
      .error "Unmatched bracket count went below 0"
    else if (unmatched + countChar '\x7b' line) - countChar '\x7d' line = 0 ∧
        nodeTxt ++ line ≠ [] then
      if isInvalidNode (nodeTxt ++ line) then
        parseNodesGo rest 0 []
      else
        (parseNodesGo rest 0 []).map (fun blocks => (nodeTxt ++ line) :: blocks)
    else
      parseNodesGo rest
        ((unmatched + countChar '\x7b' line) - countChar '\x7d' line) (nodeTxt ++ line)

/-- The block sequence _parse_nodes yields for a list of scene lines. -/
def parse_nodes_blocks (ls : List Chars) : Except String (List Chars) :=
  parseNodesGo ls 0 []

/-- Running unmatched-brace scan, stated independently of the block
accumulation: true when the counter the parser maintains ever goes
negative.  Lines with no opening brace seen while the counter is zero
are skipped, exactly as the parser skips lines outside any block. -/
def braceScanNeg : List Chars → Nat → Bool
  | [], _ => false
  | line :: rest, u =>
    if u = 0 ∧ countChar '\x7b' line = 0 then braceScanNeg rest u
    else if ((u : Int) + countChar '\x7b' line) - countChar '\x7d' line < 0 then true
    else braceScanNeg rest ((u + countChar '\x7b' line) - countChar '\x7d' line)

/-- End-line test of NODE_PARSE_REGEX: a line that is exactly a
closing brace or one space followed by a closing brace. -/
def isEndLine (l : Chars) : Bool := l = chars "\x7d" || l = chars " \x7d"

/-- Indices at which pat occurs in s. -/
def occIdxs (pat s : Chars) : List Nat :=
  (List.range (s.length + 1)).filter (fun i => pat.isPrefixOf (s.drop i))

/-- Text before the last occurrence of pat in s (s itself if absent). -/
def beforeLast (pat s : Chars) : Chars :=
  match (occIdxs pat s).getLast? with
  | some i => s.take i
  | none => s

def nodeClassGo : List Chars → Option Chars
  | [] => none
  | l :: rest =>
    if containsSub (chars " \x7b") l && rest.any (fun c => isEndLine c) then
      some (beforeLast (chars " \x7b") l)
    else nodeClassGo rest

/-- Embedding of the "class" capture of NODE_PARSE_REGEX as used by
get_node_knobs / ParsedNode.Class: searching with MULTILINE, the
leftmost match starts at the first line that contains " \x7b" and is
followed, strictly later in the block, by a line that is exactly a
closing brace or a space plus closing brace; the greedy class group
takes everything on that line before its last " \x7b". -/
def nodeClass (block : Chars) : Option Chars :=
  nodeClassGo (splitChar '\n' block)

/-- The parser input of claim C6, as readlines yields it. -/
def demoLines : List Chars :=
  [chars "Read \x7b\n", chars " file \"a\"\n", chars "\x7d\n",
   chars "Root \x7b\n", chars " first_frame 1\n", chars "\x7d\n"]

def demoBlock1 : Chars := chars "Read \x7b\n file \"a\"\n\x7d\n"

def demoBlock2 : Chars := chars "Root \x7b\n first_frame 1\n\x7d\n"

/-- The claim C6 input with one extra unmatched closing brace: an
extra line consisting of a lone closing brace after the first block. -/
def demoLinesExtraBrace : List Chars :=
  [chars "Read \x7b\n", chars " file \"a\"\n", chars "\x7d\n", chars "\x7d\n",
   chars "Root \x7b\n", chars " first_frame 1\n", chars "\x7d\n"]

/-- Embedding of parse_nodes (src/python/scene_packager/packagers/
nuke/utils.py lines 125-152 and src/scene_packager/nuke/
nuke_packager_utils.py lines 140-167): the scene path is cleaned, then
validated before any content is read: missing file is a ValueError,
an extension other than exactly ".nk" is a ValueError; only then is
the file read and split into blocks.  The construction of ParsedNode
objects from the blocks is modelled separately by nodeClass and the
knob functions. -/
def parse_nodes (scene : Chars) (isFile : Bool) (contents : List Chars) :
    Except String (List Chars) :=
  let sc := clean_path scene
  if !isFile then .error "Scene does not exist"
  else if (splitext sc).2 ≠ chars ".nk" then .error "Scene is not a nukescript"
  else parse_nodes_blocks contents

/-! ## Rename rule engine (get_renamed_dst_path) -/

/-- One configured rename rule (both copies of get_renamed_dst_path:
src/python/scene_packager/utils.py lines 328-384 and
src/scene_packager/python/scene_packager/utils.py lines 289-347).
The compiled regex search and the format-string expansion are
primitives of the Python runtime, embedded as functions: `search` is
re.search of data["regex"], returning the groupdict when the pattern
matches, and `expand` is data["format_str"].format(**match_dict) after
the per-group sub_chars substitutions and int coercion have been
applied to the groupdict. -/
structure RenameRule where
  desc : Chars
  regex : Chars
  search : Chars → Option (List (Chars × Chars))
  expand : List (Chars × Chars) → Chars

/-- The ambiguity error report: the source raises ValueError naming
the source path, after logging, for every matching rule, its
description, its regex and its captured groupdict. -/
structure AmbiguityReport where
  src : Chars
  reported : List (Chars × Chars × List (Chars × Chars))

/-- Every matching rule together with its groupdict, in rule order:
the `matched` accumulator of the source. -/
def matchedRules (patterns : List RenameRule) (src_path : Chars) :
    List (RenameRule × List (Chars × Chars)) :=
  patterns.filterMap (fun r => (r.search src_path).map (fun g => (r, g)))

/-- The scan loop of get_renamed_dst_path: `renamed` takes the first
matching rule's expansion (a later match only fills it if the earlier
expansion was the empty string, Python truthiness), while `matched`
collects every match. -/
def renameLoop (src : Chars) : List RenameRule → Chars →
    List (RenameRule × List (Chars × Chars)) →
    Chars × List (RenameRule × List (Chars × Chars))
  | [], renamed, matched => (renamed, matched)
  | r :: rs, renamed, matched =>
    match r.search src with
    | some g =>
      renameLoop src rs (if renamed = [] then r.expand g else renamed)
        (matched ++ [(r, g)])
    | none => renameLoop src rs renamed matched

/-- Embedding of get_renamed_dst_path: after the scan, more than one
match raises the ambiguity ValueError carrying every matching rule's
description, regex and groupdict; otherwise the (possibly empty)
renamed value is returned.  The source condition
`matched and len(matched) > 1` is equivalent to `1 < len(matched)`. -/
def get_renamed_dst_path (patterns : List RenameRule) (src_path : Chars) :
    Except AmbiguityReport Chars :=
  if 1 < (renameLoop src_path patterns [] []).2.length then
    .error ⟨src_path,
      (renameLoop src_path patterns [] []).2.map (fun m => (m.1.desc, m.1.regex, m.2))⟩
  else
    .ok (renameLoop src_path patterns [] []).1

/-- Two demo rules that both match the claim's example source path
with different expansion templates. -/
def demoRuleA : RenameRule :=
  { desc := chars "element by name"
  , regex := chars "v(?P<version>[0-9]+)/(?P<name>.+)$"
  , search := fun s =>
      if s = chars "/proj/v003/bg.1001.exr" then
        some [(chars "version", chars "3"), (chars "name", chars "bg.1001.exr")]
      else none
  , expand := fun _ => chars "elements/v3/bg.1001.exr" }

def demoRuleB : RenameRule :=
  { desc := chars "flat plate"
  , regex := chars "/proj/(?P<tail>.+)$"
  , search := fun s =>
      if s = chars "/proj/v003/bg.1001.exr" then
        some [(chars "tail", chars "v003/bg.1001.exr")]
      else none
  , expand := fun _ => chars "plates/bg.1001.exr" }

/-! ## PathResolver fallback (basic_package_dst_path) -/

/-- Match of the version-directory regex "\\/v\\d+\\/" at the head of
the remaining text: slash, letter v, one or more digits, slash. -/
def vSegAtHead (t : Chars) : Bool :=
  match t with
  | '/' :: 'v' :: rest =>
    (rest.takeWhile Char.isDigit) ≠ [] &&
      ((rest.drop (rest.takeWhile Char.isDigit).length).head? = some '/')
  | _ => false

/-- Leftmost index at which the version-directory regex matches,
mirroring re.search scanning positions left to right. -/
def findVSegFrom : Chars → Nat → Option Nat
  | [], _ => none
  | c :: rest, i =>
    if vSegAtHead (c :: rest) then some i else findVSegFrom rest (i + 1)

def findVSeg (s : Chars) : Option Nat := findVSegFrom s 0

/-- Embedding of re.sub(FRAME_PAD_FMT_REGEX, "", base): remove a
trailing run of one or more hash marks, or a trailing percent,
optional digits, letter d, in both cases only when preceded by an
underscore or a dot (a lookbehind, which is not consumed). -/
def stripFramePadFmt (b : Chars) : Chars :=
  if (b.reverse.takeWhile (fun c => c = '#')) ≠ [] ∧
      ((b.reverse.drop (b.reverse.takeWhile (fun c => c = '#')).length).head? = some '_' ∨
       (b.reverse.drop (b.reverse.takeWhile (fun c => c = '#')).length).head? = some '.') then
    b.take (b.length - (b.reverse.takeWhile (fun c => c = '#')).length)
  else
    match b.reverse with
    | 'd' :: rest =>
      if ((rest.drop (rest.takeWhile Char.isDigit).length).head? = some '%') ∧
          ((rest.drop (rest.takeWhile Char.isDigit).length).tail.head? = some '_' ∨
           (rest.drop (rest.takeWhile Char.isDigit).length).tail.head? = some '.') then
        b.take (b.length - (2 + (rest.takeWhile Char.isDigit).length))
      else b
    | _ => b

/-- Embedding of basic_package_dst_path in the primary tree
(src/python/scene_packager/utils.py lines 302-325): if the cleaned
source path has a version-directory segment, keep that segment and
everything below it under the destination parent; otherwise bucket
under a subdirectory named os.path.splitext(basename)[0] — the base
name with only the final extension removed, no frame-pad handling —
with the original filename beneath it. -/
def basic_package_dst_path (src_path dst_dir : Chars) : Chars :=
  match findVSeg (clean_path src_path) with
  | some i =>
    clean_path (osJoin (clean_path dst_dir) ((clean_path src_path).drop (i + 1)))
  | none =>
    clean_path (osJoin
      (osJoin (clean_path dst_dir) ((splitext (basename (clean_path src_path))).1))
      (basename (clean_path src_path)))

/-- Embedding of basic_package_dst_path in the snapshot tree
(src/scene_packager/python/scene_packager/utils.py lines 256-286):
same version-directory branch; the fallback subdirectory additionally
strips a hash-run or percent-d style frame-pad token from the base
name (and a bare "*" base, the glob case, yields no subdirectory). -/
def basic_package_dst_path_v2 (src_path dst_dir : Chars) : Chars :=
  match findVSeg (clean_path src_path) with
  | some i =>
    clean_path (osJoin (clean_path dst_dir) ((clean_path src_path).drop (i + 1)))
  | none =>
    clean_path (osJoin
      (osJoin (clean_path dst_dir)
        (if (splitext (basename (clean_path src_path))).1 = chars "*" then []
         else stripFramePadFmt ((splitext (basename (clean_path src_path))).1)))
      (basename (clean_path src_path)))

/-- Fallback destination as claim C7 words it (comparison definition,
following the words of the spec): version segment and everything below
it when present, otherwise a subdirectory named after the base name
with any frame-pad token stripped, original filename beneath. -/
def fallback_dst_spec (src_path dst_dir : Chars) : Chars :=
  match findVSeg src_path with
  | some i => osJoin dst_dir (src_path.drop (i + 1))
  | none =>
    osJoin (osJoin dst_dir (stripFramePadFmt ((splitext (basename src_path)).1)))
      (basename src_path)

/-! ## Parsed nodes and knob access (nuke_packager_utils.ParsedNode) -/

/-- A parsed node: its raw block text and its knob dict.  The dict is
what get_node_knobs builds: the knob lines parsed into name/value
pairs with last-write-wins, plus a "Class" entry holding the class
capture of NODE_PARSE_REGEX (which overwrites any knob literally named
Class). -/
structure ParsedNode where
  data : Chars
  knobs : List (Chars × Chars)
deriving DecidableEq, Inhabited, Repr

def knobLookup (n : ParsedNode) (k : Chars) : Option Chars :=
  (n.knobs.find? (fun e => e.1 = k)).map Prod.snd

/-- Embedding of ParsedNode.Class (nuke_packager_utils.py lines
237-247): the "Class" dict entry, with the KeyError fallback that
classifies a block whose text starts with "Root" as Root, and an
uncaught KeyError otherwise. -/
def nodeClassE (n : ParsedNode) : Except String Chars :=
  match knobLookup n (chars "Class") with
  | some c => .ok c
  | none =>
    if (chars "Root").isPrefixOf n.data then .ok (chars "Root")
    else .error "KeyError: Class"

/-- Embedding of ParsedNode.knob_value (nuke_packager_utils.py lines
249-267): KeyError when the knob is missing (returned as none, callers
decide whether it is caught); a value of two apostrophes or two double
quotes is normalised to the empty string. -/
def knob_value (n : ParsedNode) (k : Chars) : Option Chars :=
  (knobLookup n k).map (fun v =>
    if v = ['\x27', '\x27'] ∨ v = ['"', '"'] then [] else v)

/-- Embedding of get_node_file_knobs (nuke_packager_utils.py lines
74-84). -/
def get_node_file_knobs (node_class : Chars) : List Chars :=
  if node_class = chars "Vectorfield" then [chars "vfield_file"] else [chars "file"]

/-- Embedding of get_node_subdir (nuke_packager_utils.py lines 61-71),
keyed by the node class. -/
def get_node_subdir_of_class (cls : Chars) : Chars :=
  if cls = chars "DeepWrite" ∨ cls = chars "Write" then chars "images/outputs"
  else chars "images/inputs"

/-- Embedding of exclude_node_files (nuke_packager_utils.py lines
87-100), keyed by the node class: DeepWrite and Write render-output
nodes are policy-excluded. -/
def exclude_node_files_of_class (cls : Chars) : Bool :=
  cls = chars "DeepWrite" || cls = chars "Write"

/-- Embedding of ParsedNode.files (nuke_packager_utils.py lines
269-280): the knob values for the class's configured file knobs,
missing knobs skipped (KeyError caught). -/
def nodeFiles (n : ParsedNode) : Except String (List Chars) :=
  (nodeClassE n).map (fun cls =>
    (get_node_file_knobs cls).filterMap (fun k => knob_value n k))

/-! ## Dependency extraction (load_scene_data) -/

/-- One dependency entry of the dep_data dict. -/
structure DepEntry where
  packaged_path : Chars
  relative_path : Chars
  start? : Option Int
  end? : Option Int
deriving DecidableEq, Inhabited, Repr

/-- Value of the scene-level start/end locals of load_scene_data.
The merge branch assigns the raw knob string to them, so under the
Python 2 the source targets they hold either an int or a string. -/
inductive PyVal where
  | int (v : Int)
  | str (s : Chars)
deriving DecidableEq, Inhabited, Repr

def lexLt : Chars → Chars → Bool
  | [], [] => false
  | [], _ :: _ => true
  | _ :: _, [] => false
  | a :: as, b :: bs => if a < b then true else if a = b then lexLt as bs else false

/-- Python 2 `<` on the mixed int/str scene-level locals: values of
numeric type compare below strings, strings compare lexicographically. -/
def pyLt : PyVal → PyVal → Bool
  | .int a, .int b => a < b
  | .str a, .str b => lexLt a b
  | .int _, .str _ => true
  | .str _, .int _ => false

def alGet (d : List (Chars × DepEntry)) (k : Chars) : Option DepEntry :=
  (d.find? (fun e => e.1 = k)).map Prod.snd

/-- Dict assignment on an existing key keeps its position. -/
def alSet (d : List (Chars × DepEntry)) (k : Chars) (v : DepEntry) :
    List (Chars × DepEntry) :=
  d.map (fun e => if e.1 = k then (k, v) else e)

/-- State threaded through the node loop of load_scene_data. -/
structure LoadState where
  root : Option ParsedNode
  dep_data : List (Chars × DepEntry)
  start? : Option PyVal
  end? : Option PyVal
deriving DecidableEq, Inhabited, Repr

/-- Read and int-parse a frame knob: none when the knob is missing
(KeyError caught by the source); an unparsable value is the uncaught
ValueError of int(); otherwise the raw string and its value. -/
def parseKnobInt (n : ParsedNode) (k : Chars) : Except String (Option (Chars × Int)) :=
  match knob_value n k with
  | none => Except.ok none
  | some s =>
    match pyInt s with
    | none => Except.error "ValueError: invalid literal for int"
    | some v => Except.ok (some (s, v))

/-- Merge of one start contribution into an existing entry
(`if curr_start is None or int(start) < int(curr_start)`). -/
def mergeMin (cur? : Option Int) (c : Option (Chars × Int)) : Option Int :=
  match c with
  | none => cur?
  | some (_, v) =>
    match cur? with
    | none => some v
    | some cur => some (if v < cur then v else cur)

/-- Merge of one end contribution into an existing entry
(`if curr_end is None or int(end) > int(curr_end)`). -/
def mergeMax (cur? : Option Int) (c : Option (Chars × Int)) : Option Int :=
  match c with
  | none => cur?
  | some (_, v) =>
    match cur? with
    | none => some v
    | some cur => some (if cur < v then v else cur)

/-- Embedding of the per-file body of the load_scene_data loop
(src/nuke/scene_packager_config.py lines 126-197).  The destination is
computed for every occurrence (get_packaged_path of the loaded config,
an external collaborator, is the pkgPath parameter), the relative path
likewise when use_relative_paths is set (its AssertionError is logged
and re-raised); then either the existing entry's frame range is merged
(min/max against the integer-parsed first/last knobs; int() of an
unparsable value is an uncaught ValueError) or a fresh entry is
appended.  The scene-level locals are updated as the source does: the
merge branch overwrites them with the raw knob strings, the new-entry
branch min/maxes them under Python 2 mixed-type comparison. -/
def processFile (pkgPath : Chars → Chars → Chars) (useRel : Bool)
    (packaged_scene package_root : Chars) (n : ParsedNode) (st : LoadState)
    (file : Chars) : Except String LoadState :=
  match nodeClassE n with
  | .error e => .error e
  | .ok cls =>
    match knob_value n (chars "name") with
    | none => .error "KeyError: name"
    | some name =>
      match (if useRel then
          get_relative_path packaged_scene
            (pkgPath file (osJoin (osJoin package_root (get_node_subdir_of_class cls)) name))
            package_root
        else .ok []) with
      | .error e => .error e
      | .ok rel =>
        match alGet st.dep_data file with
        | some entry =>
          match parseKnobInt n (chars "first") with
          | .error e => .error e
          | .ok first? =>
            match parseKnobInt n (chars "last") with
            | .error e => .error e
            | .ok last? =>
              .ok { st with
                dep_data := alSet st.dep_data file
                  { entry with start? := mergeMin entry.start? first?,
                               end? := mergeMax entry.end? last? }
                start? := (match first? with
                  | none => st.start?
                  | some (s, _) => some (PyVal.str s))
                end? := (match last? with
                  | none => st.end?
                  | some (s, _) => some (PyVal.str s)) }
        | none =>
          match parseKnobInt n (chars "first") with
          | .error e => .error e
          | .ok first? =>
            match parseKnobInt n (chars "last") with
            | .error e => .error e
            | .ok last? =>
              .ok { st with
                dep_data := st.dep_data ++
                  [(file,
                    { packaged_path := pkgPath file
                        (osJoin (osJoin package_root (get_node_subdir_of_class cls)) name),
                      relative_path := rel,
                      start? := first?.map Prod.snd, end? := last?.map Prod.snd })]
                start? := (match first? with
                  | none => st.start?
                  | some (_, v) =>
                    match st.start? with
                    | none => some (PyVal.int v)
                    | some cur =>
                      if pyLt (PyVal.int v) cur then some (PyVal.int v) else some cur)
                end? := (match last? with
                  | none => st.end?
                  | some (_, v) =>
                    match st.end? with
                    | none => some (PyVal.int v)
                    | some cur =>
                      if pyLt cur (PyVal.int v) then some (PyVal.int v) else some cur) }

/-- Embedding of the per-node body of load_scene_data (lines 119-125):
record the last Root seen; skip policy-excluded nodes and nodes with
no (truthy) file list; otherwise process each file value. -/
def processNode (pkgPath : Chars → Chars → Chars) (useRel : Bool)
    (packaged_scene package_root : Chars) (st : LoadState) (n : ParsedNode) :
    Except String LoadState :=
  match nodeClassE n with
  | .error e => .error e
  | .ok cls =>
    if exclude_node_files_of_class cls then
      .ok (if cls = chars "Root" then { st with root := some n } else st)
    else
      match nodeFiles n with
      | .error e => .error e
      | .ok files =>
        if files = [] then
          .ok (if cls = chars "Root" then { st with root := some n } else st)
        else
          files.foldlM (processFile pkgPath useRel packaged_scene package_root n)
            (if cls = chars "Root" then { st with root := some n } else st)

/-- Embedding of load_scene_data (src/nuke/scene_packager_config.py
lines 96-203): fold the node loop, then fail with the no-Root
ValueError when no Root node was seen; otherwise return the Root node,
the dependency dict and the scene-level start/end. -/
def load_scene_data (pkgPath : Chars → Chars → Chars) (useRel : Bool)
    (packaged_scene package_root : Chars) (nodes : List ParsedNode) :
    Except String (ParsedNode × List (Chars × DepEntry) × Option PyVal × Option PyVal) :=
  match nodes.foldlM (processNode pkgPath useRel packaged_scene package_root)
      { root := none, dep_data := [], start? := none, end? := none } with
  | .error e => .error e
  | .ok st =>
    match st.root with
    | none => .error "Error: no Root node found!"
    | some r => .ok (r, st.dep_data, st.start?, st.end?)

/-- Whether a node contributes the source path f to the dependency
map: its class resolves, it is not policy-excluded, and f is among its
(truthy) file-knob values. -/
def contributesFile (n : ParsedNode) (f : Chars) : Bool :=
  match nodeFiles n, nodeClassE n with
  | .ok fs, .ok cls => !(exclude_node_files_of_class cls) && fs ≠ [] && f ∈ fs
  | _, _ => false

/-- The first-knob contributions (parsed, none when the knob is
absent) of the nodes contributing f, in node order. -/
def contribsFirstOf (nodes : List ParsedNode) (f : Chars) : List (Option Int) :=
  (nodes.filter (fun n => contributesFile n f)).map
    (fun n => (knob_value n (chars "first")).bind pyInt)

def contribsLastOf (nodes : List ParsedNode) (f : Chars) : List (Option Int) :=
  (nodes.filter (fun n => contributesFile n f)).map
    (fun n => (knob_value n (chars "last")).bind pyInt)

def minStep (a : Option Int) (v : Int) : Option Int :=
  match a with
  | none => some v
  | some c => some (min c v)

def maxStep (a : Option Int) (v : Int) : Option Int :=
  match a with
  | none => some v
  | some c => some (max c v)

/-- Running minimum of a list of frame numbers. -/
def optMinList (vs : List Int) : Option Int := vs.foldl minStep none

/-- Running maximum of a list of frame numbers. -/
def optMaxList (vs : List Int) : Option Int := vs.foldl maxStep none

/-- Effect of one contribution on the tracked start field of an entry
(none = entry absent): a first contribution creates the entry with the
knob value (possibly absent), later ones merge by minimum. -/
def stepStart (acc : Option (Option Int)) (c : Option Int) : Option (Option Int) :=
  match acc, c with
  | none, co => some co
  | some cur, none => some cur
  | some none, some v => some (some v)
  | some (some cur), some v => some (some (min cur v))

def stepEnd (acc : Option (Option Int)) (c : Option Int) : Option (Option Int) :=
  match acc, c with
  | none, co => some co
  | some cur, none => some cur
  | some none, some v => some (some v)
  | some (some cur), some v => some (some (max cur v))

/-! ## Scene rewriter (write_packaged_scene substitution loop) -/

/-- Embedding of the dependency-substitution loop of
write_packaged_scene (src/nuke/scene_packager_config.py lines 243-259
and src/python/scene_packager/packagers/nuke/nuke_packager.py lines
164-180): iterate the dep_data dict items in their dict order — no
sorting of any kind, in particular not by source-path length — and for
each entry re.sub the source path over the whole scene text with the
chosen destination.  The source path is passed to re.sub without
re.escape, i.e. as a pattern; the embedding is literal replacement,
exact for metacharacter-free paths.  In relative mode an entry with a
falsy relative_path raises ValueError. -/
def subFiles (relative_paths : Bool) (dep_data : List (Chars × DepEntry))
    (text : Chars) : Except String Chars :=
  dep_data.foldlM (fun acc e =>
    if relative_paths then
      if e.2.relative_path = [] then Except.error "ValueError: No relative path data"
      else Except.ok (replaceAll e.1 e.2.relative_path acc)
    else Except.ok (replaceAll e.1 e.2.packaged_path acc)) text

/-- Stable insertion into a list ordered by descending source-path
length (for the claim-side comparison definition). -/
def insertByLenDesc (x : Chars × DepEntry) :
    List (Chars × DepEntry) → List (Chars × DepEntry)
  | [] => [x]
  | y :: ys =>
    if y.1.length ≤ x.1.length then x :: y :: ys else y :: insertByLenDesc x ys

def sortByLenDesc (d : List (Chars × DepEntry)) : List (Chars × DepEntry) :=
  d.foldr insertByLenDesc []

/-- Substitution loop as claim C1 words it (comparison definition):
same literal substitutions, but applied ordered by descending
source-path length. -/
def subFilesSpec (relative_paths : Bool) (dep_data : List (Chars × DepEntry))
    (text : Chars) : Except String Chars :=
  subFiles relative_paths (sortByLenDesc dep_data) text

/-! ## Demo data shared by the dependency-extraction claims -/

/-- Concrete stand-in for the configured get_packaged_path (the default
config routes through basic_package_dst_path; any function works for
the extraction claims): file basename under the node parent dir. -/
def demoPkgPath : Chars → Chars → Chars := fun f parent => osJoin parent (basename f)

def demoRoot : ParsedNode :=
  { data := chars "Root \x7b\n\x7d\n", knobs := [(chars "Class", chars "Root")] }

def c4Read1 : ParsedNode :=
  { data := chars "Read \x7b\n\x7d\n"
  , knobs := [(chars "Class", chars "Read"), (chars "file", chars "/x/p"),
              (chars "name", chars "R1"), (chars "first", chars "1001"),
              (chars "last", chars "1003")] }

def c4Read2 : ParsedNode :=
  { data := chars "Read \x7b\n\x7d\n"
  , knobs := [(chars "Class", chars "Read"), (chars "file", chars "/x/p"),
              (chars "name", chars "R2"), (chars "first", chars "1002"),
              (chars "last", chars "1010")] }

def c4Nodes : List ParsedNode := [c4Read1, c4Read2, demoRoot]

def c4Entry : DepEntry :=
  { packaged_path := chars "/pkg/images/inputs/R1/p", relative_path := [],
    start? := some 1001, end? := some 1010 }

def c8Read : ParsedNode :=
  { data := chars "Read \x7b\n file /x/a\n\x7d\n"
  , knobs := [(chars "Class", chars "Read"), (chars "file", chars "/x/a"),
              (chars "name", chars "R1")] }

def c8Write : ParsedNode :=
  { data := chars "Write \x7b\n file /x/a\n\x7d\n"
  , knobs := [(chars "Class", chars "Write"), (chars "file", chars "/x/a"),
              (chars "name", chars "W1")] }

/-- A Write node referencing a path no other node shares. -/
def c8WriteOnly : ParsedNode :=
  { data := chars "Write \x7b\n file /x/w\n\x7d\n"
  , knobs := [(chars "Class", chars "Write"), (chars "file", chars "/x/w"),
              (chars "name", chars "W2")] }

def c8Nodes : List ParsedNode := [c8Read, c8Write, demoRoot]

def c8bNodes : List ParsedNode := [c8WriteOnly, c8Read, demoRoot]

def c8Entry : DepEntry :=
  { packaged_path := chars "/pkg/images/inputs/R1/a", relative_path := [],
    start? := none, end? := none }

def c8SceneText : Chars :=
  chars "Read \x7b\n file /x/a\n\x7d\nWrite \x7b\n file /x/a\n\x7d\nRoot \x7b\n\x7d\n"

def c8bSceneText : Chars :=
  chars "Write \x7b\n file /x/w\n\x7d\nRead \x7b\n file /x/a\n\x7d\nRoot \x7b\n\x7d\n"

def c1Entry1 : DepEntry :=
  { packaged_path := chars "/p/bexr", relative_path := [],
    start? := none, end? := none }

def c1Entry2 : DepEntry :=
  { packaged_path := chars "/q/bexrbak", relative_path := [],
    start? := none, end? := none }

/-- Dependency dict whose insertion order puts the shorter source path
(a strict prefix of the longer one) first. -/
def c1Deps : List (Chars × DepEntry) :=
  [(chars "/a/bexr", c1Entry1), (chars "/a/bexrbak", c1Entry2)]

def c1Text : Chars := chars "file /a/bexr\nfile /a/bexrbak\n"

/-- Relative-path computation as claim C5 words it (comparison
definition, following the words of the spec, not the source): the
package root is stripped from each path as a leading prefix only;
the result is "./dep-stub" when the scene's root-relative path has
exactly one segment, otherwise one ".." per extra directory level of
the scene's location. -/
def relative_path_spec (package_scene package_dependency package_root : Chars) :
    Option Chars :=
  if package_root.isPrefixOf package_dependency && package_root.isPrefixOf package_scene then
    let dep_stub := stripChar '/' (package_dependency.drop package_root.length)
    let scene_stub := package_scene.drop package_root.length
    if dep_stub = [] then none
    else
      let scene_dirs := (splitChar '/' scene_stub).filter (fun s => s ≠ [])
      if scene_dirs.length = 1 then some (osJoin (chars ".") dep_stub)
      else
        some (osJoin
          (List.intercalate (chars "/")
            (List.replicate (scene_dirs.length - 1) (chars "..")))
          dep_stub)
  else none

/-!
# Theorems

Sanity examples for the primitives, shared helper lemmas, and the
claim theorems.
-/

-- Sanity checks for the primitives (kept as plain examples).

example : replaceAll (chars "/r") [] (chars "/r/x/r/f.exr") = chars "/x/f.exr" := rfl
example : replaceAll (chars "ab") (chars "z") (chars "ababab") = chars "zzz" := rfl
example : splitChar '/' (chars "/a//b") = [[], chars "a", [], chars "b"] := rfl
example : stripChar '/' (chars "//a/b/") = chars "a/b" := rfl
example : osJoin (chars ".") (chars "img/f.exr") = chars "./img/f.exr" := rfl
example : osJoin (chars "a") [] = chars "a/" := rfl
example : osJoin (chars "a") (chars "/b") = chars "/b" := rfl
example : basename (chars "/a/b/c.exr") = chars "c.exr" := rfl
example : splitext (chars "/a/b.nk") = (chars "/a/b", chars ".nk") := rfl
example : splitext (chars "/a.d/b") = (chars "/a.d/b", []) := rfl
example : splitext (chars "/a/.bashrc") = (chars "/a/.bashrc", []) := rfl
example : splitext (chars "/a/sc.nk.bak") = (chars "/a/sc.nk", chars ".bak") := rfl
example : pyInt (chars " 1001 ") = some 1001 := rfl
example : pyInt (chars "-12") = some (-12) := rfl
example : pyInt (chars "1a") = none := rfl
example : clean_path (chars "a\\b\\c") = chars "a/b/c" := rfl

/-! ## Shared helper lemmas -/

theorem replaceAll_singleton_of_not_mem (a : Char) (rep : Chars) (s : Chars)
    (h : a ∉ s) : replaceAll [a] rep s = s := by
  induction s with
  | nil => rfl
  | cons c rest ih =>
    simp only [List.mem_cons, not_or] at h
    have hpre : (([a] : Chars).isPrefixOf (c :: rest)) = false := by
      simp [List.isPrefixOf, h.1]
    show replaceGo [a] rep (c :: rest) 0 = c :: rest
    rw [replaceGo, hpre]
    simp only [Bool.false_eq_true, and_false, if_false]
    exact congrArg (c :: ·) (ih h.2)

theorem clean_path_eq_self (s : Chars) (h : '\\' ∉ s) : clean_path s = s :=
  replaceAll_singleton_of_not_mem '\\' (chars "/") s h

theorem mem_stripChar (ch c : Char) (s : Chars) (h : c ∈ stripChar ch s) : c ∈ s := by
  unfold stripChar at h
  rw [List.mem_reverse] at h
  have h1 := (List.dropWhile_sublist _).mem h
  rw [List.mem_reverse] at h1
  exact (List.dropWhile_sublist _).mem h1

theorem mem_osJoin (a b : Chars) (c : Char) (h : c ∈ osJoin a b) :
    c ∈ a ∨ c ∈ b ∨ c = '/' := by
  unfold osJoin at h
  split at h
  · exact Or.inr (Or.inl h)
  · split at h
    · exact Or.inr (Or.inl h)
    · split at h
      · rcases List.mem_append.mp h with h3 | h3
        · exact Or.inl h3
        · exact Or.inr (Or.inl h3)
      · rcases List.mem_append.mp h with h3 | h3
        · exact Or.inl h3
        · rcases List.mem_cons.mp h3 with h4 | h4
          · exact Or.inr (Or.inr h4)
          · exact Or.inr (Or.inl h4)

theorem mem_intercalate_ups (n : Nat) (c : Char)
    (h : c ∈ List.intercalate (chars "/") (List.replicate n (chars ".."))) :
    c = '/' ∨ c = '.' := by
  induction n with
  | zero => simp [List.intercalate] at h
  | succ m ih =>
    cases m with
    | zero =>
      simp [List.intercalate, List.replicate, List.intersperse, chars] at h
      exact Or.inr h
    | succ k =>
      rw [List.intercalate, List.replicate_succ, List.replicate_succ,
          List.intersperse_cons_cons, List.flatten_cons, List.flatten_cons] at h
      rcases List.mem_append.mp h with h1 | h1
      · right; simpa [chars] using h1
      · rcases List.mem_append.mp h1 with h2 | h2
        · left; simpa [chars] using h2
        · exact ih (by rw [List.intercalate, List.replicate_succ]; exact h2)

theorem isPrefixOf_append_self (l t : Chars) : l.isPrefixOf (l ++ t) = true := by
  rw [List.isPrefixOf_iff_prefix]
  exact List.prefix_append l t

/-! ## Helper lemmas for the dependency-extraction claims -/

theorem except_bind_ok {α β : Type} (x : Except String α) (f : α → Except String β)
    (b : β) : (x >>= f) = .ok b ↔ ∃ a, x = .ok a ∧ f a = .ok b := by
  cases x <;> simp [Bind.bind, Except.bind]

theorem alGet_cons (e : Chars × DepEntry) (tl : List (Chars × DepEntry)) (f : Chars) :
    alGet (e :: tl) f = if e.1 = f then some e.2 else alGet tl f := by
  by_cases hef : e.1 = f
  · simp [alGet, List.find?, hef]
  · simp [alGet, List.find?, hef]

theorem alSet_cons (e : Chars × DepEntry) (tl : List (Chars × DepEntry)) (k : Chars)
    (v : DepEntry) :
    alSet (e :: tl) k v = (if e.1 = k then (k, v) else e) :: alSet tl k v := by
  simp [alSet]

theorem alGet_alSet_self (d : List (Chars × DepEntry)) (k : Chars) (v : DepEntry) :
    (alGet d k).isSome = true → alGet (alSet d k v) k = some v := by
  induction d with
  | nil => simp [alGet, alSet]
  | cons e tl ih =>
    intro hs
    rw [alSet_cons, alGet_cons]
    by_cases hek : e.1 = k
    · rw [if_pos hek]
      simp
    · rw [if_neg hek]
      simp only [if_neg hek]
      rw [alGet_cons, if_neg hek] at hs
      exact ih hs

theorem alGet_alSet_other (d : List (Chars × DepEntry)) (k f : Chars) (v : DepEntry)
    (hne : f ≠ k) : alGet (alSet d k v) f = alGet d f := by
  induction d with
  | nil => simp [alGet, alSet]
  | cons e tl ih =>
    rw [alSet_cons, alGet_cons, alGet_cons]
    by_cases hek : e.1 = k
    · rw [if_pos hek, if_neg (show ¬(k, v).1 = f from fun hc => hne hc.symm),
          if_neg (hek ▸ fun hc => hne hc.symm), ih]
    · rw [if_neg hek]
      by_cases hef : e.1 = f
      · rw [if_pos hef, if_pos hef]
      · rw [if_neg hef, if_neg hef, ih]

theorem alGet_append_single_self (d : List (Chars × DepEntry)) (k : Chars)
    (v : DepEntry) (h : alGet d k = none) : alGet (d ++ [(k, v)]) k = some v := by
  induction d with
  | nil => simp [alGet, List.find?]
  | cons e tl ih =>
    rw [List.cons_append, alGet_cons]
    rw [alGet_cons] at h
    by_cases hek : e.1 = k
    · rw [if_pos hek] at h
      exact absurd h (by simp)
    · rw [if_neg hek] at h ⊢
      exact ih h

theorem alGet_append_single_other (d : List (Chars × DepEntry)) (k f : Chars)
    (v : DepEntry) (hne : f ≠ k) : alGet (d ++ [(k, v)]) f = alGet d f := by
  induction d with
  | nil =>
    simp [alGet, List.find?, show ¬(k = f) from fun hc => hne hc.symm]
  | cons e tl ih =>
    rw [List.cons_append, alGet_cons, alGet_cons]
    by_cases hef : e.1 = f
    · rw [if_pos hef, if_pos hef]
    · rw [if_neg hef, if_neg hef, ih]

theorem ite_lt_eq_min (v cur : Int) : (if v < cur then v else cur) = min cur v := by
  rcases lt_or_le v cur with h | h
  · rw [if_pos h, min_eq_right h.le]
  · rw [if_neg (not_lt.mpr h), min_eq_left h]

theorem ite_lt_eq_max (v cur : Int) : (if cur < v then v else cur) = max cur v := by
  rcases lt_or_le cur v with h | h
  · rw [if_pos h, max_eq_right h.le]
  · rw [if_neg (not_lt.mpr h), max_eq_left h]

theorem parseKnobInt_ok (n : ParsedNode) (k : Chars) (c : Option (Chars × Int))
    (h : parseKnobInt n k = .ok c) : (knob_value n k).bind pyInt = c.map Prod.snd := by
  unfold parseKnobInt at h
  cases hk : knob_value n k with
  | none =>
    simp only [hk] at h
    cases h
    rfl
  | some s =>
    simp only [hk] at h
    cases hp : pyInt s with
    | none => simp [hp] at h
    | some v =>
      simp only [hp] at h
      cases h
      simp [Option.bind, hp]

/-- Effect of processFile on keys other than the processed file: the
dependency dict is untouched there. -/
theorem processFile_dep_other (pkgPath : Chars → Chars → Chars) (useRel : Bool)
    (ps pr : Chars) (n : ParsedNode) (st : LoadState) (file : Chars)
    (st1 : LoadState) (f : Chars)
    (h : processFile pkgPath useRel ps pr n st file = .ok st1) (hne : f ≠ file) :
    alGet st1.dep_data f = alGet st.dep_data f := by
  unfold processFile at h
  split at h
  · exact Except.noConfusion h
  · split at h
    · exact Except.noConfusion h
    · split at h
      · exact Except.noConfusion h
      · split at h
        · split at h
          · exact Except.noConfusion h
          · split at h
            · exact Except.noConfusion h
            · cases h
              exact alGet_alSet_other _ _ _ _ hne
        · split at h
          · exact Except.noConfusion h
          · split at h
            · exact Except.noConfusion h
            · cases h
              exact alGet_append_single_other _ _ _ _ hne

/-- Effect of processFile on its own key: the entry's frame fields are
the stepStart/stepEnd merge of the knob contributions. -/
theorem processFile_dep_self (pkgPath : Chars → Chars → Chars) (useRel : Bool)
    (ps pr : Chars) (n : ParsedNode) (st : LoadState) (file : Chars)
    (st1 : LoadState)
    (h : processFile pkgPath useRel ps pr n st file = .ok st1) :
    (alGet st1.dep_data file).map DepEntry.start?
      = stepStart ((alGet st.dep_data file).map DepEntry.start?)
          ((knob_value n (chars "first")).bind pyInt)
    ∧ (alGet st1.dep_data file).map DepEntry.end?
      = stepEnd ((alGet st.dep_data file).map DepEntry.end?)
          ((knob_value n (chars "last")).bind pyInt) := by
  unfold processFile at h
  split at h
  · exact Except.noConfusion h
  · next cls hcls =>
    split at h
    · exact Except.noConfusion h
    · next name hname =>
      split at h
      · exact Except.noConfusion h
      · next rel hrel =>
        split at h
        · next entry hentry =>
          split at h
          · exact Except.noConfusion h
          · next first? hfirst =>
            split at h
            · exact Except.noConfusion h
            · next last? hlast =>
              cases h
              rw [parseKnobInt_ok _ _ _ hfirst, parseKnobInt_ok _ _ _ hlast]
              have hset := alGet_alSet_self st.dep_data file
                { entry with start? := mergeMin entry.start? first?,
                             end? := mergeMax entry.end? last? }
                (by rw [hentry]; rfl)
              constructor
              · rw [hset, hentry]
                cases first? with
                | none => simp [mergeMin, stepStart]
                | some sv =>
                  obtain ⟨s, v⟩ := sv
                  cases hcur : entry.start? with
                  | none => simp [mergeMin, stepStart, hcur]
                  | some cur => simp [mergeMin, stepStart, hcur, ite_lt_eq_min]
              · rw [hset, hentry]
                cases last? with
                | none => simp [mergeMax, stepEnd]
                | some sv =>
                  obtain ⟨s, v⟩ := sv
                  cases hcur : entry.end? with
                  | none => simp [mergeMax, stepEnd, hcur]
                  | some cur => simp [mergeMax, stepEnd, hcur, ite_lt_eq_max]
        · next hentry =>
          split at h
          · exact Except.noConfusion h
          · next first? hfirst =>
            split at h
            · exact Except.noConfusion h
            · next last? hlast =>
              cases h
              rw [parseKnobInt_ok _ _ _ hfirst, parseKnobInt_ok _ _ _ hlast]
              have happ := alGet_append_single_self st.dep_data file
                { packaged_path := pkgPath file
                    (osJoin (osJoin pr (get_node_subdir_of_class cls)) name),
                  relative_path := rel,
                  start? := first?.map Prod.snd, end? := last?.map Prod.snd } hentry
              constructor
              · rw [happ, hentry]
                simp [stepStart]
              · rw [happ, hentry]
                simp [stepEnd]

theorem nodeFiles_small (n : ParsedNode) (fs : List Chars)
    (h : nodeFiles n = .ok fs) : fs = [] ∨ ∃ v, fs = [v] := by
  unfold nodeFiles at h
  cases hcls : nodeClassE n with
  | error e => simp [hcls, Except.map] at h
  | ok cls =>
    simp only [hcls, Except.map] at h
    cases h
    unfold get_node_file_knobs
    split
    · cases hv : knob_value n (chars "vfield_file") with
      | none => left; simp [List.filterMap, hv]
      | some v => right; exact ⟨v, by simp [List.filterMap, hv]⟩
    · cases hv : knob_value n (chars "file") with
      | none => left; simp [List.filterMap, hv]
      | some v => right; exact ⟨v, by simp [List.filterMap, hv]⟩

/-- Effect of one node on a dependency key: a contributing node merges
one frame contribution, any other node leaves the key alone. -/
theorem processNode_dep (pkgPath : Chars → Chars → Chars) (useRel : Bool)
    (ps pr : Chars) (st : LoadState) (n : ParsedNode) (st1 : LoadState) (f : Chars)
    (h : processNode pkgPath useRel ps pr st n = .ok st1) :
    (alGet st1.dep_data f).map DepEntry.start?
      = (if contributesFile n f then [(knob_value n (chars "first")).bind pyInt]
         else []).foldl stepStart ((alGet st.dep_data f).map DepEntry.start?)
    ∧ (alGet st1.dep_data f).map DepEntry.end?
      = (if contributesFile n f then [(knob_value n (chars "last")).bind pyInt]
         else []).foldl stepEnd ((alGet st.dep_data f).map DepEntry.end?) := by
  unfold processNode at h
  split at h
  · exact Except.noConfusion h
  · next cls hcls =>
    have hdep : (if cls = chars "Root" then { st with root := some n } else st).dep_data
        = st.dep_data := by split <;> rfl
    split at h
    · next hex =>
      cases h
      have hc : contributesFile n f = false := by
        unfold contributesFile
        cases hfs : nodeFiles n with
        | error e => simp [hfs]
        | ok fs => simp [hfs, hcls, hex]
      simp only [hc, Bool.false_eq_true, if_false, List.foldl_nil]
      constructor <;> rw [hdep]
    · next hex =>
      split at h
      · exact Except.noConfusion h
      · next files hfiles =>
        split at h
        · next hfe =>
          cases h
          have hc : contributesFile n f = false := by
            unfold contributesFile
            simp [hfiles, hcls, hfe]
          simp only [hc, Bool.false_eq_true, if_false, List.foldl_nil]
          constructor <;> rw [hdep]
        · next hfe =>
          rcases nodeFiles_small n files hfiles with hnil | ⟨v, hv⟩
          · exact absurd hnil hfe
          · subst hv
            simp only [List.foldlM_cons, List.foldlM_nil] at h
            rw [except_bind_ok] at h
            obtain ⟨stx, hstx, hpure⟩ := h
            have hst1 : stx = st1 := by
              simpa [pure, Except.pure] using hpure
            subst hst1
            by_cases hvf : v = f
            · subst hvf
              have hc : contributesFile n v = true := by
                unfold contributesFile
                simp [hfiles, hcls, hex]
              have hself := processFile_dep_self pkgPath useRel ps pr n _ v _ hstx
              rw [hdep] at hself
              simp only [hc, if_true, List.foldl_cons, List.foldl_nil]
              exact hself
            · have hfv : ¬f = v := fun hc => hvf hc.symm
              have hc : contributesFile n f = false := by
                unfold contributesFile
                simp [hfiles, hcls, hex, hfv]
              have hother := processFile_dep_other pkgPath useRel ps pr n _ v _ f hstx
                (fun hc => hvf hc.symm)
              rw [hdep] at hother
              simp only [hc, Bool.false_eq_true, if_false, List.foldl_nil, hother]
              exact ⟨trivial, trivial⟩

theorem contribsFirstOf_cons (nd : ParsedNode) (ns : List ParsedNode) (f : Chars) :
    contribsFirstOf (nd :: ns) f
      = (if contributesFile nd f then [(knob_value nd (chars "first")).bind pyInt]
         else []) ++ contribsFirstOf ns f := by
  unfold contribsFirstOf
  by_cases hc : contributesFile nd f = true
  · simp [List.filter_cons, hc]
  · simp [List.filter_cons, hc]

theorem contribsLastOf_cons (nd : ParsedNode) (ns : List ParsedNode) (f : Chars) :
    contribsLastOf (nd :: ns) f
      = (if contributesFile nd f then [(knob_value nd (chars "last")).bind pyInt]
         else []) ++ contribsLastOf ns f := by
  unfold contribsLastOf
  by_cases hc : contributesFile nd f = true
  · simp [List.filter_cons, hc]
  · simp [List.filter_cons, hc]

/-- The whole node fold merges, per dependency key, exactly the
contributions of the contributing nodes, in order. -/
theorem foldlM_processNode_dep (pkgPath : Chars → Chars → Chars) (useRel : Bool)
    (ps pr : Chars) (f : Chars) (nodes : List ParsedNode) :
    ∀ (st st' : LoadState),
    List.foldlM (processNode pkgPath useRel ps pr) st nodes = .ok st' →
    (alGet st'.dep_data f).map DepEntry.start?
        = (contribsFirstOf nodes f).foldl stepStart
            ((alGet st.dep_data f).map DepEntry.start?)
    ∧ (alGet st'.dep_data f).map DepEntry.end?
        = (contribsLastOf nodes f).foldl stepEnd
            ((alGet st.dep_data f).map DepEntry.end?) := by
  induction nodes with
  | nil =>
    intro st st' h
    simp only [List.foldlM_nil] at h
    have hst : st = st' := by simpa [pure, Except.pure] using h
    subst hst
    simp [contribsFirstOf, contribsLastOf]
  | cons nd ns ih =>
    intro st st' h
    simp only [List.foldlM_cons] at h
    rw [except_bind_ok] at h
    obtain ⟨st1, h1, h2⟩ := h
    have hn := processNode_dep pkgPath useRel ps pr st nd st1 f h1
    have hi := ih st1 st' h2
    constructor
    · rw [hi.1, hn.1, contribsFirstOf_cons, List.foldl_append]
    · rw [hi.2, hn.2, contribsLastOf_cons, List.foldl_append]

theorem foldl_stepStart_some (cs : List (Option Int)) : ∀ s : Option Int,
    cs.foldl stepStart (some s) = some ((cs.filterMap id).foldl minStep s) := by
  induction cs with
  | nil => intro s; simp
  | cons c cs ih =>
    intro s
    cases c with
    | none =>
      rw [List.foldl_cons]
      rw [show stepStart (some s) none = some s from by cases s <;> rfl]
      rw [ih s]
      simp [List.filterMap_cons]
    | some v =>
      cases s with
      | none =>
        rw [List.foldl_cons]
        rw [show stepStart (some none) (some v) = some (some v) from rfl, ih (some v)]
        simp [List.filterMap_cons, minStep]
      | some cur =>
        rw [List.foldl_cons]
        rw [show stepStart (some (some cur)) (some v) = some (some (min cur v)) from rfl,
            ih (some (min cur v))]
        simp [List.filterMap_cons, minStep]

theorem foldl_stepEnd_some (cs : List (Option Int)) : ∀ s : Option Int,
    cs.foldl stepEnd (some s) = some ((cs.filterMap id).foldl maxStep s) := by
  induction cs with
  | nil => intro s; simp
  | cons c cs ih =>
    intro s
    cases c with
    | none =>
      rw [List.foldl_cons]
      rw [show stepEnd (some s) none = some s from by cases s <;> rfl]
      rw [ih s]
      simp [List.filterMap_cons]
    | some v =>
      cases s with
      | none =>
        rw [List.foldl_cons]
        rw [show stepEnd (some none) (some v) = some (some v) from rfl, ih (some v)]
        simp [List.filterMap_cons, maxStep]
      | some cur =>
        rw [List.foldl_cons]
        rw [show stepEnd (some (some cur)) (some v) = some (some (max cur v)) from rfl,
            ih (some (max cur v))]
        simp [List.filterMap_cons, maxStep]

theorem foldl_stepStart_none (c : Option Int) (cs : List (Option Int)) :
    (c :: cs).foldl stepStart none = some (optMinList ((c :: cs).filterMap id)) := by
  rw [List.foldl_cons, show stepStart none c = some c from rfl, foldl_stepStart_some]
  cases c with
  | none => simp [optMinList, List.filterMap_cons]
  | some v => simp [optMinList, List.filterMap_cons, minStep]

theorem foldl_stepEnd_none (c : Option Int) (cs : List (Option Int)) :
    (c :: cs).foldl stepEnd none = some (optMaxList ((c :: cs).filterMap id)) := by
  rw [List.foldl_cons, show stepEnd none c = some c from rfl, foldl_stepEnd_some]
  cases c with
  | none => simp [optMaxList, List.filterMap_cons]
  | some v => simp [optMaxList, List.filterMap_cons, maxStep]

/-! ## Claim C4 (per-path frame range union) -/

/-- C4: for every successful extraction and every source path present
in the dependency map, the entry's start is the minimum and its end
the maximum of the integer-parsed first/last knob contributions of all
nodes contributing that path. -/
theorem c4_frame_range_union (pkgPath : Chars → Chars → Chars) (useRel : Bool)
    (ps pr : Chars) (nodes : List ParsedNode)
    (out : ParsedNode × List (Chars × DepEntry) × Option PyVal × Option PyVal)
    (P : Chars) (e : DepEntry)
    (hok : load_scene_data pkgPath useRel ps pr nodes = .ok out)
    (hf : alGet out.2.1 P = some e) :
    e.start? = optMinList ((contribsFirstOf nodes P).filterMap id) ∧
    e.end? = optMaxList ((contribsLastOf nodes P).filterMap id) := by
  unfold load_scene_data at hok
  split at hok
  · exact Except.noConfusion hok
  · next st hfold =>
    split at hok
    · exact Except.noConfusion hok
    · next r hroot =>
      cases hok
      have hf2 : alGet st.dep_data P = some e := hf
      have hfold2 := foldlM_processNode_dep pkgPath useRel ps pr P nodes _ _ hfold
      have hzs : (alGet (LoadState.dep_data
          { root := none, dep_data := [], start? := none, end? := none }) P).map
          DepEntry.start? = none := rfl
      have hze : (alGet (LoadState.dep_data
          { root := none, dep_data := [], start? := none, end? := none }) P).map
          DepEntry.end? = none := rfl
      have hstart := hfold2.1
      have hend := hfold2.2
      rw [hf2, hzs] at hstart
      rw [hf2, hze] at hend
      constructor
      · cases hcs : contribsFirstOf nodes P with
        | nil =>
          rw [hcs, List.foldl_nil] at hstart
          exact Option.noConfusion hstart
        | cons c cs =>
          rw [hcs, foldl_stepStart_none] at hstart
          exact Option.some.inj hstart
      · cases hcs : contribsLastOf nodes P with
        | nil =>
          rw [hcs, List.foldl_nil] at hend
          exact Option.noConfusion hend
        | cons c cs =>
          rw [hcs, foldl_stepEnd_none] at hend
          exact Option.some.inj hend

/-- Witness for C4 at the claim's concrete scenario: two Read nodes
referencing "/x/p" with ranges [1001,1003] and [1002,1010]; the
extracted entry has start 1001 and end 1010, and the general theorem
instantiates to it. -/
theorem c4_witness :
    load_scene_data demoPkgPath false (chars "/pkg/scene.nk") (chars "/pkg") c4Nodes
      = .ok (demoRoot, [(chars "/x/p", c4Entry)],
             some (PyVal.str (chars "1002")), some (PyVal.str (chars "1010"))) ∧
    c4Entry.start? = some 1001 ∧ c4Entry.end? = some 1010 ∧
    c4Entry.start? = optMinList ((contribsFirstOf c4Nodes (chars "/x/p")).filterMap id) ∧
    c4Entry.end? = optMaxList ((contribsLastOf c4Nodes (chars "/x/p")).filterMap id) := by
  have h := c4_frame_range_union demoPkgPath false (chars "/pkg/scene.nk")
    (chars "/pkg") c4Nodes
    (demoRoot, [(chars "/x/p", c4Entry)],
     some (PyVal.str (chars "1002")), some (PyVal.str (chars "1010")))
    (chars "/x/p") c4Entry rfl rfl
  exact ⟨rfl, rfl, rfl, h.1, h.2⟩

/-! ## Claim C8 (policy-excluded nodes) -/

/-- C8 counterexample: a Read node and a policy-excluded Write node
share the source path "/x/a".  The Write node contributes no entry,
but because write_packaged_scene substitutes every occurrence of a
dependency path across the whole scene text, the Write node's file
knob value is rewritten too — the claim says it never is. -/
theorem c8_counterexample :
    load_scene_data demoPkgPath false (chars "/pkg/scene.nk") (chars "/pkg") c8Nodes
      = .ok (demoRoot, [(chars "/x/a", c8Entry)], none, none) ∧
    subFiles false [(chars "/x/a", c8Entry)] c8SceneText
      = .ok (chars "Read \x7b\n file /pkg/images/inputs/R1/a\n\x7d\nWrite \x7b\n file /pkg/images/inputs/R1/a\n\x7d\nRoot \x7b\n\x7d\n") ∧
    containsSub (chars "/x/a")
      (chars "Read \x7b\n file /pkg/images/inputs/R1/a\n\x7d\nWrite \x7b\n file /pkg/images/inputs/R1/a\n\x7d\nRoot \x7b\n\x7d\n")
      = false :=
  ⟨rfl, rfl, rfl⟩

/-- C8 amended: a policy-excluded node never contributes an entry to
the dependency map — every mapped source path has a non-excluded
contributing node.  Its file value is also not substituted when no
non-excluded node shares the path (the path is then absent from the
map, witnessed concretely by the Write-only path "/x/w" surviving
rewriting).  But when a non-excluded node references the same source
path, the whole-text substitution rewrites the excluded node's
occurrence as well. -/
theorem c8_amended (pkgPath : Chars → Chars → Chars) (useRel : Bool)
    (ps pr : Chars) (nodes : List ParsedNode)
    (out : ParsedNode × List (Chars × DepEntry) × Option PyVal × Option PyVal)
    (f : Chars) (e : DepEntry)
    (hok : load_scene_data pkgPath useRel ps pr nodes = .ok out)
    (hf : alGet out.2.1 f = some e) :
    (∃ n, n ∈ nodes ∧ contributesFile n f = true) ∧
    load_scene_data demoPkgPath false (chars "/pkg/scene.nk") (chars "/pkg") c8bNodes
      = .ok (demoRoot, [(chars "/x/a", c8Entry)], none, none) ∧
    subFiles false [(chars "/x/a", c8Entry)] c8bSceneText
      = .ok (chars "Write \x7b\n file /x/w\n\x7d\nRead \x7b\n file /pkg/images/inputs/R1/a\n\x7d\nRoot \x7b\n\x7d\n") ∧
    containsSub (chars "/x/w")
      (chars "Write \x7b\n file /x/w\n\x7d\nRead \x7b\n file /pkg/images/inputs/R1/a\n\x7d\nRoot \x7b\n\x7d\n")
      = true := by
  refine ⟨?_, rfl, rfl, rfl⟩
  unfold load_scene_data at hok
  split at hok
  · exact Except.noConfusion hok
  · next st hfold =>
    split at hok
    · exact Except.noConfusion hok
    · next r hroot =>
      cases hok
      have hf2 : alGet st.dep_data f = some e := hf
      have hfold2 := foldlM_processNode_dep pkgPath useRel ps pr f nodes _ _ hfold
      have hzs : (alGet (LoadState.dep_data
          { root := none, dep_data := [], start? := none, end? := none }) f).map
          DepEntry.start? = none := rfl
      have hstart := hfold2.1
      rw [hf2, hzs] at hstart
      cases hcs : contribsFirstOf nodes f with
      | nil =>
        rw [hcs, List.foldl_nil] at hstart
        exact Option.noConfusion hstart
      | cons c cs =>
        have hfil : nodes.filter (fun n => contributesFile n f) ≠ [] := by
          intro hc
          unfold contribsFirstOf at hcs
          rw [hc] at hcs
          exact List.noConfusion hcs
        cases hfl : nodes.filter (fun n => contributesFile n f) with
        | nil => exact absurd hfl hfil
        | cons n rest =>
          have hmem : n ∈ nodes.filter (fun n => contributesFile n f) := by
            rw [hfl]; exact List.mem_cons_self n rest
          have := List.mem_filter.mp hmem
          exact ⟨n, this.1, this.2⟩

/-- Witness for C8 at the shared-path scenario. -/
theorem c8_witness :
    (∃ n, n ∈ c8Nodes ∧ contributesFile n (chars "/x/a") = true) ∧
    load_scene_data demoPkgPath false (chars "/pkg/scene.nk") (chars "/pkg") c8bNodes
      = .ok (demoRoot, [(chars "/x/a", c8Entry)], none, none) :=
  have h := c8_amended demoPkgPath false (chars "/pkg/scene.nk") (chars "/pkg")
    c8Nodes (demoRoot, [(chars "/x/a", c8Entry)], none, none)
    (chars "/x/a") c8Entry rfl rfl
  ⟨h.1, h.2.1⟩

/-! ## Claim C1 (substitution ordering and escaping) -/

/-- C1 counterexample: the rewriter iterates the dependency dict in
dict order with no length sorting; when the scene contains the two
dependency paths "/a/bexr" and "/a/bexrbak" (the first a strict prefix
of the second, inserted first), the shorter substitution corrupts the
longer occurrence: the rewritten text contains the corrupted fragment
"/p/bexrbak" and never the longer path's destination "/q/bexrbak" —
while the substitution the claim describes (longest source first,
computed by the comparison definition subFilesSpec) rewrites both
correctly. -/
theorem c1_counterexample :
    subFiles false c1Deps c1Text = .ok (chars "file /p/bexr\nfile /p/bexrbak\n") ∧
    subFilesSpec false c1Deps c1Text = .ok (chars "file /p/bexr\nfile /q/bexrbak\n") ∧
    containsSub (chars "/p/bexrbak") (chars "file /p/bexr\nfile /p/bexrbak\n") = true ∧
    containsSub (chars "/q/bexrbak") (chars "file /p/bexr\nfile /p/bexrbak\n") = false :=
  ⟨rfl, rfl, rfl, rfl⟩

/-- C1 amended: the rewriter applies the substitutions in dependency
dict order (insertion order; never sorted by source-path length), each
one a global replacement over the whole scene text — so when a scene
contains two dependency paths with the shorter a prefix of the longer
and inserted first, the rewritten text contains the shorter path's
destination spliced into the longer occurrence (a corrupted fragment)
instead of the longer path's destination. -/
theorem c1_amended :
    (∀ (entry : Chars × DepEntry) (rest : List (Chars × DepEntry)) (t : Chars),
      subFiles false (entry :: rest) t
        = subFiles false rest (replaceAll entry.1 entry.2.packaged_path t)) ∧
    subFiles false c1Deps c1Text = .ok (chars "file /p/bexr\nfile /p/bexrbak\n") ∧
    containsSub (chars "/p/bexrbak") (chars "file /p/bexr\nfile /p/bexrbak\n") = true := by
  refine ⟨?_, rfl, rfl⟩
  intro entry rest t
  rfl

/-! ## Claim C3 (ambiguous rename rules) -/

/-- The matched accumulator of the rename scan collects exactly the
matching rules in order (helper for C3). -/
theorem renameLoop_matched (src : Chars) (patterns : List RenameRule) :
    ∀ (renamed : Chars) (matched : List (RenameRule × List (Chars × Chars))),
    (renameLoop src patterns renamed matched).2
      = matched ++ matchedRules patterns src := by
  induction patterns with
  | nil => intro r m; simp [renameLoop, matchedRules]
  | cons p ps ih =>
    intro r m
    cases hp : p.search src with
    | some g => simp [renameLoop, hp, matchedRules, List.filterMap_cons, ih]
    | none => simp [renameLoop, hp, matchedRules, List.filterMap_cons, ih]

/-- C3: whenever more than one rename rule matches a source path (in
particular, two rules with different candidate destinations), path
resolution returns the ambiguity error carrying every matching rule's
description, regex and captured groupdict, and produces no
destination value. -/
theorem c3_ambiguous_rename (patterns : List RenameRule) (src : Chars)
    (h : 2 ≤ (matchedRules patterns src).length) :
    get_renamed_dst_path patterns src
      = .error ⟨src, (matchedRules patterns src).map
          (fun m => (m.1.desc, m.1.regex, m.2))⟩ := by
  have hm := renameLoop_matched src patterns [] []
  rw [List.nil_append] at hm
  unfold get_renamed_dst_path
  rw [hm, if_pos (show 1 < (matchedRules patterns src).length from h)]

/-- Witness for C3: both demo rules match the claim's example path
"/proj/v003/bg.1001.exr" with different candidate destinations, and
resolution returns the ambiguity error naming both. -/
theorem c3_witness :
    2 ≤ (matchedRules [demoRuleA, demoRuleB] (chars "/proj/v003/bg.1001.exr")).length ∧
    demoRuleA.expand [] ≠ demoRuleB.expand [] ∧
    get_renamed_dst_path [demoRuleA, demoRuleB] (chars "/proj/v003/bg.1001.exr")
      = .error ⟨chars "/proj/v003/bg.1001.exr",
          (matchedRules [demoRuleA, demoRuleB] (chars "/proj/v003/bg.1001.exr")).map
            (fun m => (m.1.desc, m.1.regex, m.2))⟩ :=
  ⟨by decide, by decide, c3_ambiguous_rename _ _ (by decide)⟩

/-! ## Claim C7 (fallback destination path) -/

theorem takeWhile_append_stop (p : Char → Bool) (ds : Chars) (x : Char) (r : Chars)
    (hds : ds.all p = true) (hx : p x = false) :
    (ds ++ x :: r).takeWhile p = ds := by
  induction ds with
  | nil => simp [List.takeWhile_cons, hx]
  | cons d tl ih =>
    simp only [List.all_cons, Bool.and_eq_true] at hds
    simp [List.takeWhile_cons, hds.1, ih hds.2]

theorem vSegAtHead_construct (digs rest : Chars) (h1 : digs ≠ [])
    (h2 : digs.all Char.isDigit = true) :
    vSegAtHead ('/' :: 'v' :: (digs ++ '/' :: rest)) = true := by
  simp only [vSegAtHead]
  rw [takeWhile_append_stop Char.isDigit digs '/' rest h2 (by decide)]
  rw [List.drop_left]
  simp [h1]

theorem findVSegFrom_eq_some (s : Chars) : ∀ (base k : Nat),
    (∀ j, j < k → vSegAtHead (s.drop j) = false) →
    vSegAtHead (s.drop k) = true →
    findVSegFrom s base = some (base + k) := by
  induction s with
  | nil =>
    intro base k hlt hk
    rw [List.drop_nil] at hk
    simp [vSegAtHead] at hk
  | cons c rest ih =>
    intro base k hlt hk
    cases k with
    | zero =>
      rw [List.drop_zero] at hk
      rw [findVSegFrom, if_pos hk]
      simp
    | succ k2 =>
      have h0 : vSegAtHead (c :: rest) = false := by
        have := hlt 0 (Nat.succ_pos _)
        rwa [List.drop_zero] at this
      rw [findVSegFrom, if_neg (by simp [h0])]
      have hres := ih (base + 1) k2
        (fun j hj => by
          have := hlt (j + 1) (Nat.succ_lt_succ hj)
          rwa [List.drop_succ_cons] at this)
        (by rwa [List.drop_succ_cons] at hk)
      have harr : base + 1 + k2 = base + (k2 + 1) := by omega
      rwa [harr] at hres

/-- C7 counterexample: for a source path with no version directory,
e.g. "/x/plate.%04d.exr", the primary implementation buckets under
"plate.%04d" — the base name with only the extension removed, the
frame-pad token retained — while the claim (and the snapshot
implementation) require the pad token stripped, giving "plate.". -/
theorem c7_counterexample :
    basic_package_dst_path (chars "/x/plate.%04d.exr") (chars "/dst")
      = chars "/dst/plate.%04d/plate.%04d.exr" ∧
    fallback_dst_spec (chars "/x/plate.%04d.exr") (chars "/dst")
      = chars "/dst/plate./plate.%04d.exr" ∧
    basic_package_dst_path (chars "/x/plate.%04d.exr") (chars "/dst")
      ≠ fallback_dst_spec (chars "/x/plate.%04d.exr") (chars "/dst") :=
  ⟨rfl, rfl, by decide⟩

/-- C7 amended: the version-directory branch is as claimed in both
implementations — a source path decomposing as
pre ++ "/v" ++ digits ++ "/" ++ rest at the leftmost version segment
maps to the destination parent joined with the segment and everything
below it.  In the fallback the primary implementation
(src/python/scene_packager/utils.py) names the subdirectory after the
base name with only the final extension removed, retaining any
frame-pad token; only the snapshot implementation
(src/scene_packager/python/scene_packager/utils.py) strips hash-run
and percent-d pad tokens, matching the claim. -/
theorem c7_amended (dst pre digs rest : Chars)
    (hnb : '\\' ∉ dst ∧ '\\' ∉ pre ∧ '\\' ∉ digs ∧ '\\' ∉ rest)
    (hd1 : digs ≠ []) (hd2 : digs.all Char.isDigit = true)
    (hleft : ∀ j, j < pre.length →
      vSegAtHead ((pre ++ '/' :: 'v' :: (digs ++ '/' :: rest)).drop j) = false) :
    basic_package_dst_path (pre ++ '/' :: 'v' :: (digs ++ '/' :: rest)) dst
      = osJoin dst ('v' :: (digs ++ '/' :: rest)) ∧
    basic_package_dst_path_v2 (pre ++ '/' :: 'v' :: (digs ++ '/' :: rest)) dst
      = osJoin dst ('v' :: (digs ++ '/' :: rest)) ∧
    basic_package_dst_path (chars "/x/plate.%04d.exr") (chars "/dst")
      = chars "/dst/plate.%04d/plate.%04d.exr" ∧
    basic_package_dst_path_v2 (chars "/x/plate.%04d.exr") (chars "/dst")
      = chars "/dst/plate./plate.%04d.exr" ∧
    basic_package_dst_path_v2 (chars "/x/plate.%04d.exr") (chars "/dst")
      = fallback_dst_spec (chars "/x/plate.%04d.exr") (chars "/dst") := by
  have hsrcnb : '\\' ∉ pre ++ '/' :: 'v' :: (digs ++ '/' :: rest) := by
    intro hmem
    rcases List.mem_append.mp hmem with h | h
    · exact hnb.2.1 h
    · rcases List.mem_cons.mp h with h | h
      · exact absurd h (by decide)
      rcases List.mem_cons.mp h with h | h
      · exact absurd h (by decide)
      rcases List.mem_append.mp h with h | h
      · exact hnb.2.2.1 h
      rcases List.mem_cons.mp h with h | h
      · exact absurd h (by decide)
      · exact hnb.2.2.2 h
  have hclean : clean_path (pre ++ '/' :: 'v' :: (digs ++ '/' :: rest))
      = pre ++ '/' :: 'v' :: (digs ++ '/' :: rest) := clean_path_eq_self _ hsrcnb
  have hcleand : clean_path dst = dst := clean_path_eq_self _ hnb.1
  have hdropPre : (pre ++ '/' :: 'v' :: (digs ++ '/' :: rest)).drop pre.length
      = '/' :: 'v' :: (digs ++ '/' :: rest) := List.drop_left pre _
  have hfind : findVSeg (pre ++ '/' :: 'v' :: (digs ++ '/' :: rest))
      = some pre.length := by
    have := findVSegFrom_eq_some (pre ++ '/' :: 'v' :: (digs ++ '/' :: rest))
      0 pre.length hleft
      (by rw [hdropPre]; exact vSegAtHead_construct digs rest hd1 hd2)
    simpa [findVSeg] using this
  have hdrop1 : (pre ++ '/' :: 'v' :: (digs ++ '/' :: rest)).drop (pre.length + 1)
      = 'v' :: (digs ++ '/' :: rest) := by
    rw [show pre ++ '/' :: 'v' :: (digs ++ '/' :: rest)
        = (pre ++ ['/']) ++ 'v' :: (digs ++ '/' :: rest) from by simp]
    rw [show pre.length + 1 = (pre ++ ['/']).length from by simp]
    exact List.drop_left _ _
  have hjoin_nb : '\\' ∉ osJoin dst ('v' :: (digs ++ '/' :: rest)) := by
    intro hmem
    rcases mem_osJoin _ _ _ hmem with h1 | h1 | h1
    · exact hnb.1 h1
    · rcases List.mem_cons.mp h1 with h2 | h2
      · exact absurd h2 (by decide)
      · rcases List.mem_append.mp h2 with h3 | h3
        · exact hnb.2.2.1 h3
        · rcases List.mem_cons.mp h3 with h4 | h4
          · exact absurd h4 (by decide)
          · exact hnb.2.2.2 h4
    · exact absurd h1 (by decide)
  have hv : basic_package_dst_path (pre ++ '/' :: 'v' :: (digs ++ '/' :: rest)) dst
      = osJoin dst ('v' :: (digs ++ '/' :: rest)) := by
    simp only [basic_package_dst_path, hclean, hcleand, hfind, hdrop1]
    exact clean_path_eq_self _ hjoin_nb
  have hv2 : basic_package_dst_path_v2 (pre ++ '/' :: 'v' :: (digs ++ '/' :: rest)) dst
      = osJoin dst ('v' :: (digs ++ '/' :: rest)) := by
    simp only [basic_package_dst_path_v2, hclean, hcleand, hfind, hdrop1]
    exact clean_path_eq_self _ hjoin_nb
  exact ⟨hv, hv2, rfl, rfl, rfl⟩

/-- Witness for C7 at the spec-style input
"/proj/shot/v003/bg.1001.exr" packaged under "/dst". -/
theorem c7_witness :
    basic_package_dst_path
      (chars "/proj/shot" ++ '/' :: 'v' :: (chars "003" ++ '/' :: chars "bg.1001.exr"))
      (chars "/dst")
      = osJoin (chars "/dst") ('v' :: (chars "003" ++ '/' :: chars "bg.1001.exr")) :=
  (c7_amended (chars "/dst") (chars "/proj/shot") (chars "003") (chars "bg.1001.exr")
    ⟨by decide, by decide, by decide, by decide⟩ (by decide) (by decide) (by decide)).1

/-! ## Claim C2 (orchestrator overwrite guard) -/

/-- C2: the claim says that a run against an existing, non-empty
destination package root without overwrite fails with
PackageExistsError and writes nothing.  The code does the opposite:
check_available_dir returns True exactly when the directory is
non-empty (contradicting its own docstring, which promises True when
the directory is missing or empty), so Packager.run raises its
"Package already exists" error precisely when the destination is empty
or missing, and sails past the guard when the destination is
non-empty.  This theorem evaluates the embedded guard at the failing
input (a destination containing one entry, overwrite unset) and at the
two inputs the code does reject. -/
theorem c2_overwrite_guard_inverted :
    run_guard_raises (some [chars "package_metadata.json"]) false = false ∧
    run_guard_raises (some []) false = true ∧
    run_guard_raises none false = true :=
  ⟨rfl, rfl, rfl⟩

/-! ## Claim C6 (block parser) -/

/-- The parser raises its unbalanced-brace error whenever the running
counter it maintains goes negative (helper for C6; the block
accumulation does not affect error detection, via the invariant that a
block is open exactly when the counter is positive or text has been
accumulated at counter zero, which the emission step resets). -/
theorem parseNodesGo_error_of_scanNeg (ls : List Chars) :
    ∀ (u : Nat) (txt : Chars), (txt = [] ↔ u = 0) → braceScanNeg ls u = true →
    parseNodesGo ls u txt = .error "Unmatched bracket count went below 0" := by
  induction ls with
  | nil => intro u txt _ h; simp [braceScanNeg] at h
  | cons line rest ih =>
    intro u txt hinv h
    rw [braceScanNeg] at h
    rw [parseNodesGo]
    by_cases hskip : u = 0 ∧ countChar '\x7b' line = 0
    · rw [if_pos hskip] at h
      rw [if_pos ⟨hinv.mpr hskip.1, hskip.2⟩]
      exact ih u txt hinv h
    · rw [if_neg hskip] at h
      have htxtk : ¬(txt = [] ∧ countChar '\x7b' line = 0) :=
        fun hc => hskip ⟨hinv.mp hc.1, hc.2⟩
      rw [if_neg htxtk]
      by_cases hneg : ((u : Int) + countChar '\x7b' line) - countChar '\x7d' line < 0
      · rw [if_pos hneg]
      · rw [if_neg hneg] at h ⊢
        have hne2 : txt ++ line ≠ [] := by
          intro hc
          rcases List.append_eq_nil.mp hc with ⟨h1, h2⟩
          exact hskip ⟨hinv.mp h1, by simp [h2, countChar]⟩
        by_cases hz : (u + countChar '\x7b' line) - countChar '\x7d' line = 0
        · rw [if_pos ⟨hz, hne2⟩]
          have herr := ih 0 [] (by simp) (hz ▸ h)
          split
          · exact herr
          · rw [herr]; rfl
        · rw [if_neg (fun hc => hz hc.1)]
          exact ih _ _ (iff_of_false hne2 hz) h

/-- C6 counterexample: the claim treats "the same input with one extra
unmatched closing brace" as an input whose running counter goes
negative and hence as one that must raise a parse error.  On the code
a lone closing-brace line arriving while no block is open hits the
skip path (no open brace, empty accumulator) before any counting, so
the counter never sees it: the input parses cleanly into the same two
blocks even though it contains one more closing brace than opening
braces. -/
theorem c6_counterexample :
    parse_nodes_blocks demoLinesExtraBrace = .ok [demoBlock1, demoBlock2] ∧
    (demoLinesExtraBrace.map (countChar '\x7d')).sum
      = (demoLinesExtraBrace.map (countChar '\x7b')).sum + 1 :=
  ⟨rfl, rfl⟩

/-- C6 amended: the demo input yields exactly the two blocks with
classes Read and Root, and every input on which the counter the parser
actually maintains goes negative (a closing brace in excess on a line
that is counted, i.e. seen while a block is open or containing an
opening brace) raises the parse error and emits no blocks.  An
unmatched closing brace on a skipped line (outside any open block, no
opening brace on the line) is ignored rather than an error. -/
theorem c6_amended (ls : List Chars) (h : braceScanNeg ls 0 = true) :
    parse_nodes_blocks ls = .error "Unmatched bracket count went below 0" ∧
    parse_nodes_blocks demoLines = .ok [demoBlock1, demoBlock2] ∧
    nodeClass demoBlock1 = some (chars "Read") ∧
    nodeClass demoBlock2 = some (chars "Root") :=
  ⟨parseNodesGo_error_of_scanNeg ls 0 [] (by simp) h, rfl, rfl, rfl⟩

/-- Witness for C6: a closing brace in excess inside an open block
(line "\x7d\x7d" while one block is open) drives the counter negative
and the parser fails. -/
theorem c6_witness :
    braceScanNeg [chars "Read \x7b\n", chars "\x7d\x7d\n"] 0 = true ∧
    parse_nodes_blocks [chars "Read \x7b\n", chars "\x7d\x7d\n"]
      = .error "Unmatched bracket count went below 0" :=
  ⟨by decide, (c6_amended _ (by decide)).1⟩

/-! ## Claim C9 (extension validation before parsing) -/

/-- C9: for every scene path whose extension is not exactly ".nk",
parse_nodes fails with its not-a-nukescript error for every possible
file contents, even when the file exists — the contents never
influence the outcome, so no scene content is read or parsed. -/
theorem c9_extension_guard (scene : Chars) (contents : List Chars)
    (hext : (splitext (clean_path scene)).2 ≠ chars ".nk") :
    parse_nodes scene true contents = .error "Scene is not a nukescript" := by
  simp [parse_nodes, hext]

/-- Witness for C9: a ".nk.bak" scene file that exists and contains
well-formed blocks is rejected. -/
theorem c9_witness :
    ((splitext (clean_path (chars "/shots/comp_v002.nk.bak"))).2 ≠ chars ".nk") ∧
    parse_nodes (chars "/shots/comp_v002.nk.bak") true demoLines
      = .error "Scene is not a nukescript" :=
  ⟨by decide, c9_extension_guard _ _ (by decide)⟩

-- With the ".nk" extension the same contents do parse.
example : parse_nodes (chars "/shots/comp_v002.nk") true demoLines
    = .ok [demoBlock1, demoBlock2] := rfl

/-! ## Claim C5 (relative path resolver) -/

-- Both concrete examples given in the claim do hold on the code.
example :
    get_relative_path (chars "/job/pkg/nk/scene.nk")
      (chars "/job/pkg/images/inputs/v003/plate.%04d.exr") (chars "/job/pkg")
      = .ok (chars "../images/inputs/v003/plate.%04d.exr") := rfl
example :
    get_relative_path (chars "/job/pkg/scene.nk")
      (chars "/job/pkg/images/inputs/v003/plate.%04d.exr") (chars "/job/pkg")
      = .ok (chars "./images/inputs/v003/plate.%04d.exr") := rfl

/-- C5 counterexample: the claim quantifies over every scene path and
dependency path prefixed by the package root, but the source strips
the root with `re.sub(package_root, "", path)`, which removes every
occurrence of the root substring, not just the leading prefix.  With
root "/r" and scene "/r/a/r/b/s.nk" (the scene sits three directories
below the root), the code removes the inner "/r" as well, counts one
directory level too few, and returns "../../img/f.exr" where the
claimed rule (one ".." per extra directory level) gives
"../../../img/f.exr". -/
theorem c5_counterexample :
    get_relative_path (chars "/r/a/r/b/s.nk") (chars "/r/img/f.exr") (chars "/r")
      = .ok (chars "../../img/f.exr") ∧
    relative_path_spec (chars "/r/a/r/b/s.nk") (chars "/r/img/f.exr") (chars "/r")
      = some (chars "../../../img/f.exr") ∧
    (chars "../../img/f.exr") ≠ (chars "../../../img/f.exr") :=
  ⟨rfl, rfl, by decide⟩

/-- C5 amended: restricted to inputs on which stripping every
occurrence of the package root coincides with stripping it as a
leading prefix (hypotheses hsc, hdc; this holds in particular whenever
the root substring reoccurs nowhere inside the root-relative parts)
and that contain no backslash, the resolver behaves as claimed:
"./dep-stub" when the scene's root-relative path has exactly one
segment, otherwise one ".." per extra directory level of the scene's
location. -/
theorem c5_amended (root sStub dStub : Chars)
    (hr : '\\' ∉ root) (hs : '\\' ∉ sStub) (hd : '\\' ∉ dStub)
    (hsc : replaceAll root [] (root ++ sStub) = sStub)
    (hdc : replaceAll root [] (root ++ dStub) = dStub)
    (hstub : stripChar '/' dStub ≠ []) :
    get_relative_path (root ++ sStub) (root ++ dStub) root
      = .ok (if ((splitChar '/' sStub).filter (fun s => s ≠ [])).length = 1
             then osJoin (chars ".") (stripChar '/' dStub)
             else osJoin
               (List.intercalate (chars "/")
                 (List.replicate
                   (((splitChar '/' sStub).filter (fun s => s ≠ [])).length - 1)
                   (chars "..")))
               (stripChar '/' dStub)) := by
  have hnb : ∀ x : Chars, '\\' ∉ x → clean_path x = x := fun x hx => clean_path_eq_self x hx
  have hcs : clean_path (root ++ sStub) = root ++ sStub :=
    hnb _ (by simp [hr, hs])
  have hcd : clean_path (root ++ dStub) = root ++ dStub :=
    hnb _ (by simp [hr, hd])
  have hcr : clean_path root = root := hnb _ hr
  have hnbStub : '\\' ∉ stripChar '/' dStub := fun hmem => hd (mem_stripChar _ _ _ hmem)
  unfold get_relative_path
  simp only [hcs, hcd, hcr, isPrefixOf_append_self, Bool.not_true,
    Bool.false_eq_true, if_false, hsc, hdc]
  rw [if_neg hstub]
  split
  · rw [hnb _ (fun hmem => by
      rcases mem_osJoin _ _ _ hmem with h1 | h1 | h1
      · simp [chars] at h1
      · exact hnbStub h1
      · exact absurd h1 (by decide))]
  · rw [hnb _ (fun hmem => by
      rcases mem_osJoin _ _ _ hmem with h1 | h1 | h1
      · rcases mem_intercalate_ups _ _ h1 with h2 | h2 <;> simp_all
      · exact hnbStub h1
      · exact absurd h1 (by decide))]

/-- Witness for C5 at the claim's own first example, decomposed as
root ++ stub. -/
theorem c5_witness :
    get_relative_path (chars "/job/pkg" ++ chars "/nk/scene.nk")
      (chars "/job/pkg" ++ chars "/images/inputs/v003/plate.%04d.exr")
      (chars "/job/pkg")
      = .ok (chars "../images/inputs/v003/plate.%04d.exr") := by
  have h := c5_amended (chars "/job/pkg") (chars "/nk/scene.nk")
    (chars "/images/inputs/v003/plate.%04d.exr")
    (by decide) (by decide) (by decide) (by decide) (by decide) (by decide)
  exact h.trans (congrArg Except.ok (by decide))

/-! ## Claim C10 (copy_file with default overwrite) -/

/-- C10: when the destination file already exists and overwrite is
left at its default False (as in the pre_package backup step),
copy_file returns the (cleaned) destination path, leaves the file
store completely unchanged, and raises no error. -/
theorem c10_copy_file_default_no_overwrite (fs : FileStore) (src dst c : Chars)
    (h : fsLookup fs (clean_path dst) = some c) :
    copy_file fs src dst false = .ok (fs, clean_path dst) := by
  simp [copy_file, h]

/-- Witness for C10 at concrete input: the backup destination already
holds contents "old"; the copy is skipped and "old" survives. -/
theorem c10_witness :
    fsLookup [(chars "/shots/sq10/scene.nk", chars "new"),
              (chars "/pkg/backup/scene.nk", chars "old")]
        (clean_path (chars "/pkg/backup/scene.nk")) = some (chars "old") ∧
    copy_file [(chars "/shots/sq10/scene.nk", chars "new"),
               (chars "/pkg/backup/scene.nk", chars "old")]
        (chars "/shots/sq10/scene.nk") (chars "/pkg/backup/scene.nk") false
      = .ok ([(chars "/shots/sq10/scene.nk", chars "new"),
              (chars "/pkg/backup/scene.nk", chars "old")],
             clean_path (chars "/pkg/backup/scene.nk")) :=
  ⟨by decide, c10_copy_file_default_no_overwrite _ _ _ (chars "old") (by decide)⟩

end ScenePackager
